import Mathlib

/-!
Verification development for the Charles-Proxy-to-profile converter
(src/charles_to_cs_converter.py).  The Python source is shallowly embedded:
dictionaries become association lists with the same insertion-order and
last-write-wins semantics, fallible parsing becomes Option, and the two
randomized choices (random.choice) become explicit index arguments reduced
modulo the list length.
-/

namespace Converter

/-! ### Python string primitives -/

/-- Model of scanning a character list up to the first occurrence of a
separator: returns the prefix before the separator and, when the separator
occurs, the remainder after it. -/
def breakAtChar (sep : Char) : List Char → List Char × Option (List Char)
  | [] => ([], none)
  | c :: cs =>
    if c = sep then ([], some cs)
    else
      let r := breakAtChar sep cs
      (c :: r.1, r.2)

/-- Model of Python str.split(sep, maxsplit) for a single-character
separator: performs at most the given number of splits. -/
def splitCharLimit (sep : Char) : Nat → List Char → List (List Char)
  | 0, cs => [cs]
  | n + 1, cs =>
    match breakAtChar sep cs with
    | (a, none) => [a]
    | (a, some rest) => a :: splitCharLimit sep n rest

/-- Python s.split(sep, maxsplit) on strings, single-character separator. -/
def pySplit (s : String) (sep : Char) (maxsplit : Nat) : List String :=
  (splitCharLimit sep maxsplit s.data).map (fun cs => String.mk cs)

/-- Python s.split(sep) without a split limit (each split consumes the
separator, so the string length is enough fuel). -/
def pySplitAll (s : String) (sep : Char) : List String :=
  pySplit s sep s.data.length

/-- Model of Python str.strip(): whitespace removed from both ends. -/
def pyStrip (s : String) : String :=
  String.mk (((s.data.dropWhile Char.isWhitespace).reverse.dropWhile Char.isWhitespace).reverse)

/-- Model of Python str.lower() for the ASCII header and parameter names
this program handles. -/
def pyLower (s : String) : String := String.mk (s.data.map Char.toLower)

/-- Model of Python sep.join(list). -/
def pyJoin (sep : String) (l : List String) : String :=
  String.mk (List.intercalate sep.data (l.map String.data))

/-- Membership of a character in a string, Python's c in s. -/
def strContains (s : String) (c : Char) : Bool := s.data.contains c

/-- Model of Python str.title(): the first character of every alphabetic
run is upper-cased and the rest of the run lower-cased. -/
def pyTitleGo : Bool → List Char → List Char
  | _, [] => []
  | prevAlpha, c :: cs =>
    (if prevAlpha then c.toLower else c.toUpper) :: pyTitleGo c.isAlpha cs

/-- Python str.title() on strings. -/
def pyTitle (s : String) : String := String.mk (pyTitleGo false s.data)

/-! ### Python dict semantics over association lists -/

/-- First-match association-list lookup: the model of reading a Python
dict, whose keys are unique. -/
def lookupDict : List (String × String) → String → Option String
  | [], _ => none
  | p :: ps, k => if p.1 = k then some p.2 else lookupDict ps k

/-- Model of a Python dict assignment d[k] = v: an existing key keeps its
position and gets the new value, a new key is appended at the end. -/
def dictInsert (d : List (String × String)) (k v : String) : List (String × String) :=
  if d.any (fun p => decide (p.1 = k)) then
    d.map (fun p => if p.1 = k then (p.1, v) else p)
  else d ++ [(k, v)]

/-- Model of a Python dict comprehension over a name/value pair list
(insertion order of first occurrence, last write wins per name). -/
def dictOfList (l : List (String × String)) : List (String × String) :=
  l.foldl (fun d p => dictInsert d p.1 p.2) []

/-- Model of a Python multi-valued dict insertion (parse_qs result):
values for an existing key are appended, new keys go to the end. -/
def multidictInsert (d : List (String × List String)) (k v : String) :
    List (String × List String) :=
  if d.any (fun p => decide (p.1 = k)) then
    d.map (fun p => if p.1 = k then (p.1, p.2 ++ [v]) else p)
  else d ++ [(k, [v])]

/-! ### urllib.parse models -/

/-- Modelled from urllib.parse.urlparse: extraction of the .path and
.query components.  Covers the shapes this program feeds it, namely
absolute http(s) URLs (a scheme followed by ://netloc) and scheme-less
path references; the fragment after the first # is discarded, the query
is the part after the first ? of the path section.  Percent-decoding is
not involved at this stage. -/
def findSchemeSep : List Char → Option (List Char)
  | ':' :: '/' :: '/' :: rest => some rest
  | _ :: rest => findSchemeSep rest
  | [] => none

/-- Split a URL string into (path, query), see findSchemeSep. -/
def urlparsePathQuery (url : String) : String × String :=
  let cs := (breakAtChar '#' url.data).1
  let pathQuery :=
    match findSchemeSep cs with
    | some rest => rest.dropWhile (fun c => c != '/')
    | none => cs
  match breakAtChar '?' pathQuery with
  | (p, none) => (String.mk p, "")
  | (p, some q) => (String.mk p, String.mk q)

/-- Modelled from urllib.parse.parse_qsl with default options: fields are
split on an ampersand, a field without an equals sign or with an empty
value is dropped.  Percent- and plus-decoding are omitted; the inputs in
this development contain neither. -/
def parse_qsl (q : String) : List (String × String) :=
  (pySplitAll q '&').foldl
    (fun acc f =>
      if f = "" then acc
      else
        match pySplit f '=' 1 with
        | [n, v] => if v = "" then acc else acc ++ [(n, v)]
        | _ => acc)
    []

/-- Modelled from urllib.parse.parse_qs: the pair list of parse_qsl folded
into a multi-valued mapping. -/
def parse_qs (q : String) : List (String × List String) :=
  (parse_qsl q).foldl (fun d p => multidictInsert d p.1 p.2) []

/-! ### The Request record -/

/-- One captured HTTP transaction, the unified record both parsers
produce.  Fields a given input shape does not set keep their defaults
(the raw-text parser sets body and leaves post_data and the response
fields empty; the archive parser sets post_data and the response fields
and leaves body empty). -/
structure Request where
  method : String := ""
  url : String := ""
  path : String := ""
  query_params : List (String × List String) := []
  headers : List (String × String) := []
  body : Option String := none
  post_data : Option String := none
  response_headers : List (String × String) := []
  response_body : Option String := none
deriving DecidableEq

/-! ### Raw-text parser (parse_raw_http) -/

/-- Header-line loop of parse_raw_http: consume lines after the request
line up to the first blank line, folding Name: Value lines (split at the
first colon, both sides trimmed, colon-less lines ignored) into a dict;
returns the headers and, when a blank line was met at index i of the full
line list, the body start index i + 1. -/
def parseHeaderLines (hs : List (String × String)) (i : Nat) :
    List String → List (String × String) × Option Nat
  | [] => (hs, none)
  | l :: ls =>
    if pyStrip l = "" then (hs, some (i + 1))
    else
      let hs' :=
        if strContains l ':' then
          match pySplit l ':' 1 with
          | [k, v] => dictInsert hs (pyStrip k) (pyStrip v)
          | _ => hs
        else hs
      parseHeaderLines hs' (i + 1) ls

/-- Embedding of parse_raw_http: strip the input, split into lines, parse
the first line as METHOD PATH VERSION (at most two splits; any other
shape is the caught unpacking failure, i.e. none), parse headers up to
the first blank line, rejoin the remaining lines as the body (absent when
no blank line separated them), and split PATH into path and query
parameters. -/
def parse_raw_http (raw : String) : Option Request :=
  let lines := pySplitAll (pyStrip raw) '\n'
  match lines with
  | [] => none
  | first :: rest =>
    match pySplit (pyStrip first) ' ' 2 with
    | [method, path, _version] =>
      let hb := parseHeaderLines [] 1 rest
      let body_start := hb.2.getD lines.length
      let body :=
        if body_start < lines.length then
          some (pyJoin "\n" (lines.drop body_start))
        else none
      let pq := urlparsePathQuery path
      some { method := method, path := pq.1, query_params := parse_qs pq.2,
             headers := hb.1, body := body }
    | _ => none

/-- Driver-level lifting of the raw-text result: the caller builds the
request list as [parsed] if parsed else []. -/
def rawDriverRequests : Option Request → List Request
  | some r => [r]
  | none => []

/-! ### Archive parser (parse_har_file) -/

/-- Loose model of one archive entry's response content: the text field
may be absent. -/
structure RawHarContent where
  text : Option String := none
deriving DecidableEq

/-- Loose model of one archive entry's request: every field the code
reads may be absent, an absent mandatory field is the KeyError the
enclosing handler turns into an empty result. -/
structure RawHarRequest where
  method : Option String := none
  url : Option String := none
  headers : Option (List (String × String)) := none
  postData : Option String := none
deriving DecidableEq

/-- Loose model of one archive entry's response. -/
structure RawHarResponse where
  headers : Option (List (String × String)) := none
  content : Option RawHarContent := none
deriving DecidableEq

/-- Loose model of one archive entry. -/
structure RawHarEntry where
  request : Option RawHarRequest := none
  response : Option RawHarResponse := none
deriving DecidableEq

/-- Loose model of the archive log object. -/
structure RawHarLog where
  entries : Option (List RawHarEntry) := none
deriving DecidableEq

/-- Loose model of the archive document. -/
structure RawHarDoc where
  log : Option RawHarLog := none
deriving DecidableEq

/-- Embedding of the per-entry body of the parse_har_file loop.  Every
field the Python code reads unconditionally must be present, otherwise
the entry raises (none here); request headers and response headers go
through the dict comprehension (last write wins), the URL is split into
path and query parameters, postData is kept when present and truthy, the
response text is kept when present. -/
def parseEntry (e : RawHarEntry) : Option Request :=
  match e.request with
  | none => none
  | some rq =>
    match e.response with
    | none => none
    | some rs =>
      match rq.method with
      | none => none
      | some method =>
        match rq.url with
        | none => none
        | some url =>
          match rq.headers with
          | none => none
          | some reqHeaders =>
            match rs.headers with
            | none => none
            | some respHeaders =>
              match rs.content with
              | none => none
              | some content =>
                let pq := urlparsePathQuery url
                some { method := method, url := url, path := pq.1,
                       query_params := parse_qs pq.2,
                       headers := dictOfList reqHeaders,
                       post_data :=
                         match rq.postData with
                         | some s => if s = "" then none else some s
                         | none => none,
                       response_headers := dictOfList respHeaders,
                       response_body := content.text }

/-- All-or-nothing traversal: the model of the Python for loop inside the
try block, which aborts at the first entry that raises. -/
def mapOption (f : α → Option β) : List α → Option (List β)
  | [] => some []
  | x :: xs =>
    match f x with
    | none => none
    | some y =>
      match mapOption f xs with
      | none => none
      | some ys => some (y :: ys)

/-- The try-block body of parse_har_file: reach log.entries and parse
every entry; any missing field anywhere is the exception. -/
def harParse (doc : RawHarDoc) : Option (List Request) :=
  match doc.log with
  | none => none
  | some lg =>
    match lg.entries with
    | none => none
    | some es => mapOption parseEntry es

/-- Embedding of parse_har_file: the except handler maps any failure to
the empty request list. -/
def parse_har_file (doc : RawHarDoc) : List Request :=
  (harParse doc).getD []

/-! ### Statistical summarizer -/

/-- Model of list(set(paths)).  Python set iteration order is arbitrary
(hash-dependent); it is modelled as first-occurrence order, which the
order-insensitive properties proved below do not depend on. -/
def uniqueList (l : List String) : List String :=
  l.foldl (fun acc x => if x ∈ acc then acc else acc ++ [x]) []

/-- Loop body of generate_uri_patterns: the path itself is always
appended, and for a path without a question mark the first two synthetic
variants (the path again and the path with a trailing slash) follow. -/
def uriVariantStep (acc : List String) (path : String) : List String :=
  let acc := acc ++ [path]
  if strContains path '?' then acc else acc ++ [path, path ++ "/"]

/-- Embedding of generate_uri_patterns: collect truthy paths, deduplicate
(set semantics), keep the first 5, run the variant loop, substitute the
fixed default list when empty, and truncate to 8. -/
def generate_uri_patterns (requests : List Request) : List String :=
  let paths := (requests.filter (fun r => decide (r.path ≠ ""))).map (fun r => r.path)
  let unique_paths := uniqueList paths
  let uri_patterns := (unique_paths.take 5).foldl uriVariantStep []
  let uri_patterns :=
    if uri_patterns = [] then ["/search", "/api", "/index.html", "/images", "/css"]
    else uri_patterns
  uri_patterns.take 8

/-- Occurrence count of a name in a list of names. -/
def countOcc (name : String) : List String → Nat
  | [] => 0
  | x :: xs => (if x = name then 1 else 0) + countOcc name xs

/-- Model of the Python tally d[k] = d.get(k, 0) + 1 step: an existing
key is incremented in place, a new key is appended with count 1. -/
def bump (acc : List (String × Nat)) (k : String) : List (String × Nat) :=
  if acc.any (fun p => decide (p.1 = k)) then
    acc.map (fun p => if p.1 = k then (p.1, p.2 + 1) else p)
  else acc ++ [(k, 1)]

/-- Tally of a name stream into insertion-ordered (name, count) pairs. -/
def tally (l : List String) : List (String × Nat) := l.foldl bump []

/-- The header-name stream of extract_common_headers, before the
exclusion filter: all header names of all requests, in request order and
per-request mapping order. -/
def allHeaderNames (requests : List Request) : List String :=
  requests.foldl (fun acc r => acc ++ r.headers.map Prod.fst) []

/-- The exclusion filter of extract_common_headers: keep a header name
unless it is case-insensitively content-length or content-encoding. -/
def keepHeader (h : String) : Bool :=
  decide (¬ (pyLower h = "content-length" ∨ pyLower h = "content-encoding"))

/-- Occurrence count of a header name across the requests' header
mappings. -/
def headerCount (requests : List Request) (name : String) : Nat :=
  countOcc name (allHeaderNames requests)

/-- The descending-by-count comparison used to model Python
sorted(items, key of the count component, reverse=True); insertion sort
under it is stable, like Python's sort. -/
def countGE (a b : String × Nat) : Prop := b.2 ≤ a.2

instance : DecidableRel countGE := fun a b => Nat.decLe b.2 a.2

instance : IsTotal (String × Nat) countGE := ⟨fun a b => Nat.le_total b.2 a.2⟩

instance : IsTrans (String × Nat) countGE := ⟨fun _ _ _ h1 h2 => Nat.le_trans h2 h1⟩

/-- Embedding of extract_common_headers: tally the filtered header-name
stream, sort descending by count (stably), return the first 10 names. -/
def extract_common_headers (requests : List Request) : List String :=
  let header_counts := tally ((allHeaderNames requests).filter keepHeader)
  let common := header_counts.insertionSort countGE
  (common.take 10).map Prod.fst

/-- The fixed fallback parameter-name list of the converter (the
common_params attribute). -/
def common_params : List String :=
  ["q", "search", "query", "id", "sid", "sessionid", "token", "auth",
   "key", "api_key", "callback", "format", "type", "action", "cmd",
   "data", "payload", "content", "message", "response", "result"]

/-- The value stream select_parameter_for_metadata iterates over: for
each request, for each query-parameter value list, each value in order.
Note that the Python loop reads query_params.values(), so parameter
VALUES flow here, not parameter names. -/
def queryValueStream (requests : List Request) : List String :=
  requests.foldl (fun acc r => acc ++ r.query_params.foldl (fun a p => a ++ p.2) []) []

/-- Model of Python max(items, key of the count component): the first
item with the maximal count (a later item replaces the best only when
strictly greater). -/
def maxBySnd : List (String × Nat) → Option (String × Nat)
  | [] => none
  | p :: ps => some (ps.foldl (fun best q => if best.2 < q.2 then q else best) p)

/-- Embedding of select_parameter_for_metadata.  The random.choice
fallback is modelled by the explicit index argument k, reduced modulo the
list length, so every possible draw is covered. -/
def select_parameter_for_metadata (requests : List Request) (k : Nat) : String :=
  let param_counts := tally ((queryValueStream requests).filter (fun v => decide (4 < v.length)))
  match maxBySnd param_counts with
  | some best => best.1
  | none => common_params.getD (k % common_params.length) ""

/-! ### Block renderer (post and stager blocks) -/

/-- First request whose exact-case header mapping contains the name,
yielding its value: the inner for/break loop of the post-block client
header scan. -/
def firstHeaderValue : List Request → String → Option String
  | [], _ => none
  | r :: rs, header =>
    match lookupDict r.headers header with
    | some v => some v
    | none => firstHeaderValue rs header

/-- Client-header lines of generate_http_post_block: the first 8 common
headers restricted to the post allow-set, each rendered with the first
observed value. -/
def postClientHeaders (common_headers : List String) (source : List Request) : List String :=
  (common_headers.take 8).foldl
    (fun acc header =>
      if pyLower header ∈ ["host", "user-agent", "accept", "content-type", "referer"] then
        match firstHeaderValue source header with
        | some v =>
          acc ++ ["        header \"" ++ header ++ "\" \"" ++ v ++ "\";"]
        | none => acc
      else acc)
    []

/-- The literal http-post template of the source (its f-string halves the
doubled braces, so the output text itself carries doubled braces). -/
def renderPostBlock (uris clientHeaders : List String) (idp outp : String) : String :=
  "http-post \x7b\x7b\n    set uri \"" ++ pyJoin " " uris ++ "\";\n    \n    client \x7b\x7b\n"
  ++ pyJoin "\n" clientHeaders
  ++ "\n        \n        id \x7b\x7b\n            netbios;\n            parameter \""
  ++ idp
  ++ "\";\n        \x7d\x7d\n        \n        output \x7b\x7b\n            base64;\n            parameter \""
  ++ outp
  ++ "\";\n        \x7d\x7d\n    \x7d\x7d\n    \n    server \x7b\x7b\n        header \"Server\" \"nginx/1.18.0\";\n        header \"Content-Type\" \"application/json\";\n        header \"Connection\" \"keep-alive\";\n        \n        output \x7b\x7b\n            netbios;\n            prepend \"\x7b\\\"status\\\":\\\"success\\\",\\\"data\\\":\\\"\";\n            append \"\\\"\x7d\x7d\";\n        \x7d\x7d\n    \x7d\x7d\n\x7d\x7d"

/-- Model of Python's a or b on request lists. -/
def pyOr (a b : List Request) : List Request := if a = [] then b else a

/-- Embedding of generate_http_post_block.  The two random.choice draws
for the id and output parameter names are the explicit indices i and j
reduced modulo 4. -/
def generate_http_post_block (requests : List Request) (i j : Nat) : String :=
  let post_requests := requests.filter (fun r => decide (r.method = "POST"))
  let uri_patterns :=
    if post_requests = [] then ["/submit", "/api/data", "/upload"]
    else generate_uri_patterns post_requests
  let source := pyOr post_requests requests
  let common_headers := extract_common_headers source
  let client_headers := postClientHeaders common_headers source
  renderPostBlock uri_patterns client_headers
    (["id", "sessionid", "token", "key"].getD (i % 4) "")
    (["data", "content", "response", "result"].getD (j % 4) "")

/-- First request whose lower-cased header mapping (a dict comprehension,
last write wins) contains the name, yielding its value: the inner
for/break loop of the stager client header scan. -/
def firstLowerHeaderValue : List Request → String → Option String
  | [], _ => none
  | r :: rs, header =>
    match lookupDict (dictOfList (r.headers.map (fun p => (pyLower p.1, p.2)))) header with
    | some v => some v
    | none => firstLowerHeaderValue rs header

/-- Client-header lines of generate_http_stager_block: the four essential
lower-case names, matched case-insensitively, emitted title-cased. -/
def stagerClientHeaders (requests : List Request) : List String :=
  ["host", "user-agent", "accept", "accept-encoding"].foldl
    (fun acc header =>
      match firstLowerHeaderValue requests header with
      | some v =>
        acc ++ ["        header \"" ++ pyTitle header ++ "\" \"" ++ v ++ "\";"]
      | none => acc)
    []

/-- The literal http-stager template of the source (doubled braces as in
the generated text). -/
def renderStagerBlock (x86 x64 : String) (clientHeaders : List String) : String :=
  "http-stager \x7b\x7b\n    set uri_x86 \"" ++ x86 ++ "\";\n    set uri_x64 \"" ++ x64
  ++ "\";\n    \n    client \x7b\x7b\n"
  ++ pyJoin "\n" clientHeaders
  ++ "\n    \x7d\x7d\n    \n    server \x7b\x7b\n        header \"Server\" \"nginx/1.18.0\";\n        header \"Content-Type\" \"application/octet-stream\";\n        header \"Connection\" \"keep-alive\";\n        \n        output \x7b\x7b\n            prepend \"<!DOCTYPE html><html><body>\";\n            append \"</body></html>\";\n        \x7d\x7d\n    \x7d\x7d\n\x7d\x7d"

/-- Embedding of generate_http_stager_block: the two stager URIs come
from positions 0 and 1 of the derived pattern list, with literal
fallbacks when the list is empty or has a single element. -/
def generate_http_stager_block (requests : List Request) : String :=
  let uri_patterns := generate_uri_patterns requests
  let client_headers := stagerClientHeaders requests
  let x86 :=
    match uri_patterns with
    | [] => "/api/x86"
    | p :: _ => p
  let x64 := if 1 < uri_patterns.length then uri_patterns.getD 1 "" else "/api/x64"
  renderStagerBlock x86 x64 client_headers

/-! ### Specification-side helper definitions and concrete inputs -/

/-- The value of the last entry of a name/value list carrying the given
name, the reference point of the last-write-wins property. -/
def lastValueFor (hs : List (String × String)) (k : String) : Option String :=
  ((hs.filter (fun p => decide (p.1 = k))).map Prod.snd).getLast?

/-- A request whose only query-parameter NAME is longer than 4 characters
while its only VALUE is a single character. -/
def c1Request : Request :=
  { method := "GET", path := "/p", query_params := [("verylongname", ["v"])] }

/-- A request with a path, for the non-empty-input URI-pattern bound. -/
def c3Request : Request := { method := "GET", path := "/a" }

/-- An archive entry whose request header list repeats the name H. -/
def c6Entry : RawHarEntry :=
  { request := some { method := some "GET", url := some "http://x/p?q=hello",
                      headers := some [("H", "a"), ("H", "b")] },
    response := some { headers := some [], content := some {} } }

/-- The request c6Entry parses to: the duplicate H kept its first
position and last value. -/
def c6Request : Request :=
  { method := "GET", url := "http://x/p?q=hello", path := "/p",
    query_params := [("q", ["hello"])], headers := [("H", "b")] }

/-- An archive document with no log object: the smallest parse failure. -/
def c7BadDoc : RawHarDoc := {}

/-- A well-formed archive entry. -/
def c10GoodEntry : RawHarEntry :=
  { request := some { method := some "GET", url := some "http://x/ok",
                      headers := some [("Host", "x")] },
    response := some { headers := some [], content := some {} } }

/-- A malformed archive entry: its request object is absent. -/
def c10BadEntry : RawHarEntry := {}

/-- An archive document whose entry list holds a good entry before a
malformed one. -/
def c10Doc : RawHarDoc :=
  { log := some { entries := some [c10GoodEntry, c10BadEntry] } }

/-- A GET request with headers, for the post-block fallback. -/
def c8Request : Request :=
  { method := "GET", path := "/a", headers := [("Host", "x"), ("Accept", "text/html")] }

/-! ### Helper lemmas -/

theorem mapOption_eq_none {α β : Type} (f : α → Option β) {l : List α} {e : α}
    (he : e ∈ l) (hbad : f e = none) : mapOption f l = none := by
  induction l with
  | nil => cases he
  | cons x xs ih =>
    rcases List.mem_cons.mp he with rfl | hmem
    · simp [mapOption, hbad]
    · cases hfx : f x with
      | none => simp [mapOption, hfx]
      | some y => simp [mapOption, hfx, ih hmem]

theorem take8_bounds (l : List String) :
    1 ≤ ((if l = [] then ["/search", "/api", "/index.html", "/images", "/css"]
          else l).take 8).length ∧
    ((if l = [] then ["/search", "/api", "/index.html", "/images", "/css"]
      else l).take 8).length ≤ 8 := by
  by_cases hl : l = []
  · subst hl; simp
  · rw [if_neg hl, List.length_take]
    constructor
    · exact le_min (by norm_num) (List.length_pos.mpr hl)
    · exact Nat.min_le_left _ _

/-! ### Claim theorems -/

/-- Claim C2: on the empty request sequence, generate_uri_patterns
returns exactly the fixed 5-element default list, in order. -/
theorem uri_patterns_of_empty :
    generate_uri_patterns [] = ["/search", "/api", "/index.html", "/images", "/css"] := by
  decide

/-- Claim C3: on every non-empty request sequence, generate_uri_patterns
returns between 1 and 8 entries. -/
theorem uri_patterns_bounds (requests : List Request) (h : requests ≠ []) :
    1 ≤ (generate_uri_patterns requests).length ∧
    (generate_uri_patterns requests).length ≤ 8 :=
  take8_bounds
    (((uniqueList ((requests.filter (fun r : Request => decide (r.path ≠ ""))).map
      (fun r : Request => r.path))).take 5).foldl uriVariantStep [])

/-- Witness for C3 at a concrete one-request input. -/
theorem uri_patterns_bounds_witness :
    1 ≤ (generate_uri_patterns [c3Request]).length ∧
    (generate_uri_patterns [c3Request]).length ≤ 8 :=
  uri_patterns_bounds [c3Request] (by decide)

/-- Claim C5: the raw-text parser on the documented example produces the
documented request record. -/
theorem parse_raw_http_example :
    parse_raw_http "GET /a?x=1 HTTP/1.1\nHost: y\n\nbodytext" =
      some { method := "GET", path := "/a", query_params := [("x", ["1"])],
             headers := [("Host", "y")], body := some "bodytext" } := by
  decide

/-- Claim C7: a parse failure in the archive parser yields the empty
request list instead of an exception, and the raw-text parser on the
empty string yields no request, so the driver sees zero requests. -/
theorem parse_failure_yields_empty (doc : RawHarDoc) (h : harParse doc = none) :
    parse_har_file doc = [] ∧ parse_raw_http "" = none ∧
    rawDriverRequests (parse_raw_http "") = [] := by
  refine ⟨?_, by decide, by decide⟩
  simp [parse_har_file, h]

/-- Witness for C7 at a concrete malformed document. -/
theorem parse_failure_yields_empty_witness :
    parse_har_file c7BadDoc = [] ∧ parse_raw_http "" = none :=
  ⟨(parse_failure_yields_empty c7BadDoc rfl).1,
   (parse_failure_yields_empty c7BadDoc rfl).2.1⟩

/-- Claim C10: the archive parser is all-or-nothing: one malformed entry
anywhere in the entry list makes the whole result empty, discarding the
requests already produced from earlier well-formed entries. -/
theorem parse_har_all_or_nothing (doc : RawHarDoc) (lg : RawHarLog)
    (es : List RawHarEntry) (e : RawHarEntry)
    (h1 : doc.log = some lg) (h2 : lg.entries = some es)
    (he : e ∈ es) (hbad : parseEntry e = none) :
    parse_har_file doc = [] := by
  simp [parse_har_file, harParse, h1, h2, mapOption_eq_none parseEntry he hbad]

/-- Witness for C10: a document with a well-formed entry followed by a
malformed one parses to the empty list. -/
theorem parse_har_all_or_nothing_witness : parse_har_file c10Doc = [] :=
  parse_har_all_or_nothing c10Doc _ _ c10BadEntry rfl rfl (by decide) (by decide)

/-- The good entry of c10Doc does parse on its own, so the empty overall
result really discards an already-parseable request. -/
theorem c10_good_entry_parses :
    parseEntry c10GoodEntry =
      some { method := "GET", url := "http://x/ok", path := "/ok",
             headers := [("Host", "x")] } := by
  decide

theorem lookupDict_map_update_self (d : List (String × String)) (k v : String)
    (h : d.any (fun p => decide (p.1 = k)) = true) :
    lookupDict (d.map (fun p => if p.1 = k then (p.1, v) else p)) k = some v := by
  induction d with
  | nil => simp at h
  | cons p ps ih =>
    by_cases hp : p.1 = k
    · simp [lookupDict, hp]
    · have h' : ps.any (fun p => decide (p.1 = k)) = true := by
        simpa [List.any_cons, hp] using h
      simp [lookupDict, hp, ih h']

theorem lookupDict_append_missing (d : List (String × String)) (k v : String)
    (h : d.any (fun p => decide (p.1 = k)) = false) :
    lookupDict (d ++ [(k, v)]) k = some v := by
  induction d with
  | nil => simp [lookupDict]
  | cons p ps ih =>
    have hp : ¬ p.1 = k := by
      intro hk; simp [List.any_cons, hk] at h
    have h' : ps.any (fun p => decide (p.1 = k)) = false := by
      simpa [List.any_cons, hp] using h
    simp [lookupDict, hp, ih h']

theorem lookupDict_dictInsert_self (d : List (String × String)) (k v : String) :
    lookupDict (dictInsert d k v) k = some v := by
  unfold dictInsert
  by_cases h : d.any (fun p => decide (p.1 = k)) = true
  · rw [if_pos h]; exact lookupDict_map_update_self d k v h
  · rw [if_neg h]
    exact lookupDict_append_missing d k v (Bool.eq_false_iff.mpr h)

theorem lookupDict_map_update_other (d : List (String × String)) (k v k' : String)
    (h : k' ≠ k) :
    lookupDict (d.map (fun p => if p.1 = k then (p.1, v) else p)) k' = lookupDict d k' := by
  induction d with
  | nil => rfl
  | cons p ps ih =>
    by_cases hp : p.1 = k
    · simp [lookupDict, hp, h.symm, ih]
    · by_cases hq : p.1 = k'
      · simp [lookupDict, hp, hq, h]
      · simp [lookupDict, hp, hq, ih]

theorem lookupDict_append_other (d : List (String × String)) (k v k' : String)
    (h : k' ≠ k) :
    lookupDict (d ++ [(k, v)]) k' = lookupDict d k' := by
  induction d with
  | nil => simp [lookupDict, h.symm]
  | cons p ps ih =>
    by_cases hp : p.1 = k'
    · simp [lookupDict, hp]
    · simp [lookupDict, hp, ih]

theorem lookupDict_dictInsert_other (d : List (String × String)) (k v k' : String)
    (h : k' ≠ k) :
    lookupDict (dictInsert d k v) k' = lookupDict d k' := by
  unfold dictInsert
  by_cases hany : d.any (fun p => decide (p.1 = k)) = true
  · rw [if_pos hany]; exact lookupDict_map_update_other d k v k' h
  · rw [if_neg hany]; exact lookupDict_append_other d k v k' h

theorem lastValueFor_snoc_self (hs : List (String × String)) (k v : String) :
    lastValueFor (hs ++ [(k, v)]) k = some v := by
  simp [lastValueFor, List.filter_append]

theorem lastValueFor_snoc_other (hs : List (String × String)) (k v k' : String)
    (h : k' ≠ k) :
    lastValueFor (hs ++ [(k, v)]) k' = lastValueFor hs k' := by
  simp [lastValueFor, List.filter_append, h.symm]

theorem dictOfList_go (l : List (String × String)) :
    ∀ (d seen : List (String × String)),
    (∀ k, lookupDict d k = lastValueFor seen k) →
    ∀ k, lookupDict (l.foldl (fun d p => dictInsert d p.1 p.2) d) k =
      lastValueFor (seen ++ l) k := by
  induction l with
  | nil => intro d seen h k; simpa using h k
  | cons p ps ih =>
    intro d seen h k
    have h' : ∀ k2, lookupDict (dictInsert d p.1 p.2) k2 = lastValueFor (seen ++ [p]) k2 := by
      intro k2
      by_cases hk : k2 = p.1
      · rw [hk, lookupDict_dictInsert_self]
        exact (lastValueFor_snoc_self seen p.1 p.2).symm
      · rw [lookupDict_dictInsert_other d p.1 p.2 k2 hk, h k2]
        exact (lastValueFor_snoc_other seen p.1 p.2 k2 hk).symm
    have := ih (dictInsert d p.1 p.2) (seen ++ [p]) h' k
    simpa [List.append_assoc] using this

theorem lookupDict_dictOfList (hs : List (String × String)) (k : String) :
    lookupDict (dictOfList hs) k = lastValueFor hs k := by
  have h0 : ∀ k', lookupDict ([] : List (String × String)) k' = lastValueFor [] k' := by
    intro k'; rfl
  simpa using dictOfList_go hs [] [] h0 k

/-- Claim C6: for an archive entry whose request header list repeats a
name, the parsed request's header mapping carries the value of the LAST
such entry, and no earlier differing value for that name survives. -/
theorem har_header_last_write_wins (e : RawHarEntry) (rq : RawHarRequest)
    (hs : List (String × String)) (req : Request) (name : String)
    (h1 : e.request = some rq) (h2 : rq.headers = some hs)
    (h3 : parseEntry e = some req)
    (hdup : 2 ≤ countOcc name (hs.map Prod.fst)) :
    lookupDict req.headers name = lastValueFor hs name ∧
    ∀ v, (name, v) ∈ hs → some v ≠ lastValueFor hs name →
      lookupDict req.headers name ≠ some v := by
  have hh : req.headers = dictOfList hs := by
    cases hrs : e.response with
    | none => simp [parseEntry, h1, hrs] at h3
    | some rs =>
      cases hm : rq.method with
      | none => simp [parseEntry, h1, h2, hrs, hm] at h3
      | some m =>
        cases hu : rq.url with
        | none => simp [parseEntry, h1, h2, hrs, hm, hu] at h3
        | some u =>
          cases hrh : rs.headers with
          | none => simp [parseEntry, h1, h2, hrs, hm, hu, hrh] at h3
          | some rh =>
            cases hc : rs.content with
            | none => simp [parseEntry, h1, h2, hrs, hm, hu, hrh, hc] at h3
            | some c =>
              simp only [parseEntry, h1, h2, hrs, hm, hu, hrh, hc,
                Option.some.injEq] at h3
              rw [← h3]
  rw [hh]
  have hmain := lookupDict_dictOfList hs name
  refine ⟨hmain, ?_⟩
  intro v _hv hne
  rw [hmain]
  exact Ne.symm hne

/-- Witness for C6 at the concrete duplicate-header entry: the mapping
holds the last value b. -/
theorem har_header_last_write_wins_witness :
    lookupDict c6Request.headers "H" = some "b" :=
  Eq.trans
    ((har_header_last_write_wins c6Entry
        { method := some "GET", url := some "http://x/p?q=hello",
          headers := some [("H", "a"), ("H", "b")] }
        [("H", "a"), ("H", "b")] c6Request "H"
        (by decide) (by decide) (by decide) (by decide)).1)
    (by decide)

/-- Claim C1 (code evaluation at the failing input): the selector tallies
query-parameter VALUES, not names.  A request whose only parameter NAME
is longer than 4 characters but whose only value is short makes the code
take the random fallback, so it can never return that name; under the
claim it would have to. -/
theorem metadata_parameter_tallies_values (k : Nat) :
    4 < String.length "verylongname" ∧
    c1Request.query_params.map Prod.fst = ["verylongname"] ∧
    select_parameter_for_metadata [c1Request] k ≠ "verylongname" ∧
    select_parameter_for_metadata [c1Request] k ∈ common_params := by
  have hred : select_parameter_for_metadata [c1Request] k =
      common_params.getD (k % 21) "" := rfl
  have hlt : k % 21 < 21 := Nat.mod_lt _ (by norm_num)
  have hne : ∀ m, m < 21 → common_params.getD m "" ≠ "verylongname" := by decide
  have hmem : ∀ m, m < 21 → common_params.getD m "" ∈ common_params := by decide
  exact ⟨by decide, by decide, hred ▸ hne _ hlt, hred ▸ hmem _ hlt⟩

/-- Claim C8: with no POST request in the input, the post block is
rendered from the literal default URI list while its client headers are
sourced from the full request sequence. -/
theorem post_block_default_uris (requests : List Request) (i j : Nat)
    (h : requests.filter (fun r => decide (r.method = "POST")) = []) :
    generate_http_post_block requests i j =
      renderPostBlock ["/submit", "/api/data", "/upload"]
        (postClientHeaders (extract_common_headers requests) requests)
        (["id", "sessionid", "token", "key"].getD (i % 4) "")
        (["data", "content", "response", "result"].getD (j % 4) "") := by
  simp [generate_http_post_block, h, pyOr]

/-- Witness for C8 at a concrete GET-only input. -/
theorem post_block_default_uris_witness :
    generate_http_post_block [c8Request] 0 0 =
      renderPostBlock ["/submit", "/api/data", "/upload"]
        (postClientHeaders (extract_common_headers [c8Request]) [c8Request])
        (["id", "sessionid", "token", "key"].getD (0 % 4) "")
        (["data", "content", "response", "result"].getD (0 % 4) "") :=
  post_block_default_uris [c8Request] 0 0 (by decide)

/-- Claim C9: the stager block takes uri_x86 from entry 0 and uri_x64
from entry 1 of the derived pattern list, with the literal fallbacks when
those entries do not exist. -/
theorem stager_block_uri_selection (requests : List Request) :
    generate_http_stager_block requests =
      renderStagerBlock ((generate_uri_patterns requests).getD 0 "/api/x86")
        ((generate_uri_patterns requests).getD 1 "/api/x64")
        (stagerClientHeaders requests) := by
  unfold generate_http_stager_block
  cases hp : generate_uri_patterns requests with
  | nil => simp [hp]
  | cons p t =>
    cases t with
    | nil => simp [hp]
    | cons q t2 => simp [hp]

theorem countOcc_append (x : String) (a b : List String) :
    countOcc x (a ++ b) = countOcc x a + countOcc x b := by
  induction a with
  | nil => simp [countOcc]
  | cons y ys ih => simp [countOcc, ih, Nat.add_assoc]

theorem countOcc_eq_zero_of_not_mem {x : String} {l : List String} (h : x ∉ l) :
    countOcc x l = 0 := by
  induction l with
  | nil => rfl
  | cons y ys ih =>
    simp only [List.mem_cons, not_or] at h
    obtain ⟨h1, h2⟩ := h
    simp [countOcc, Ne.symm h1, ih h2]

theorem countOcc_filter {f : String → Bool} {x : String} (hx : f x = true) :
    ∀ l : List String, countOcc x (l.filter f) = countOcc x l := by
  intro l
  induction l with
  | nil => rfl
  | cons y ys ih =>
    by_cases hy : f y = true
    · simp [List.filter_cons, hy, countOcc, ih]
    · have hxy : ¬ y = x := fun he => hy (by rw [he]; exact hx)
      simp [List.filter_cons, hy, countOcc, hxy, ih]

theorem bump_inv (acc : List (String × Nat)) (seen : List String) (k : String)
    (h1 : ∀ p ∈ acc, p.2 = countOcc p.1 seen)
    (h2 : ∀ x ∈ seen, ∃ p ∈ acc, p.1 = x)
    (h3 : ∀ p ∈ acc, p.1 ∈ seen) :
    (∀ p ∈ bump acc k, p.2 = countOcc p.1 (seen ++ [k])) ∧
    (∀ x ∈ seen ++ [k], ∃ p ∈ bump acc k, p.1 = x) ∧
    (∀ p ∈ bump acc k, p.1 ∈ seen ++ [k]) := by
  have hcnt : ∀ x, countOcc x (seen ++ [k]) = countOcc x seen + (if k = x then 1 else 0) := by
    intro x; rw [countOcc_append]; simp [countOcc]
  unfold bump
  by_cases hany : acc.any (fun p => decide (p.1 = k)) = true
  · rw [if_pos hany]
    obtain ⟨q0, hq0, hq0d⟩ := List.any_eq_true.mp hany
    have hq0k : q0.1 = k := of_decide_eq_true hq0d
    refine ⟨?_, ?_, ?_⟩
    · intro p hp
      obtain ⟨q, hq, hfq⟩ := List.mem_map.mp hp
      by_cases hqk : q.1 = k
      · have hpq : p = (q.1, q.2 + 1) := by rw [← hfq, if_pos hqk]
        rw [hpq]
        show q.2 + 1 = countOcc q.1 (seen ++ [k])
        rw [hcnt q.1, if_pos hqk.symm, ← h1 q hq]
      · have hpq : p = q := by rw [← hfq, if_neg hqk]
        rw [hpq, hcnt q.1, if_neg (fun he => hqk he.symm), ← h1 q hq]
        simp
    · intro x hx
      rcases List.mem_append.mp hx with hxs | hxk
      · obtain ⟨p, hp, hpx⟩ := h2 x hxs
        refine ⟨(if p.1 = k then (p.1, p.2 + 1) else p), List.mem_map_of_mem _ hp, ?_⟩
        by_cases hpk : p.1 = k
        · rw [if_pos hpk]; exact hpx
        · rw [if_neg hpk]; exact hpx
      · have hxk' : x = k := by simpa using hxk
        refine ⟨(if q0.1 = k then (q0.1, q0.2 + 1) else q0), List.mem_map_of_mem _ hq0, ?_⟩
        simp [hq0k, hxk']
    · intro p hp
      obtain ⟨q, hq, hfq⟩ := List.mem_map.mp hp
      have hfst : p.1 = q.1 := by rw [← hfq]; by_cases hqk : q.1 = k <;> simp [hqk]
      rw [hfst]
      exact List.mem_append_left _ (h3 q hq)
  · rw [if_neg hany]
    have hnone : ∀ p ∈ acc, ¬ p.1 = k := by
      intro p hp hpk
      exact hany (List.any_eq_true.mpr ⟨p, hp, decide_eq_true hpk⟩)
    have hknotseen : k ∉ seen := by
      intro hk
      obtain ⟨p, hp, hpk⟩ := h2 k hk
      exact hnone p hp hpk
    refine ⟨?_, ?_, ?_⟩
    · intro p hp
      rcases List.mem_append.mp hp with hpa | hpn
      · rw [hcnt p.1, if_neg (fun he => hnone p hpa he.symm), ← h1 p hpa]
        simp
      · have hpk : p = (k, 1) := by simpa using hpn
        rw [hpk]
        show 1 = countOcc k (seen ++ [k])
        rw [hcnt k, if_pos rfl, countOcc_eq_zero_of_not_mem hknotseen]
    · intro x hx
      rcases List.mem_append.mp hx with hxs | hxk
      · obtain ⟨p, hp, hpx⟩ := h2 x hxs
        exact ⟨p, List.mem_append_left _ hp, hpx⟩
      · have hxk' : x = k := by simpa using hxk
        exact ⟨(k, 1), List.mem_append_right _ (by simp), by simp [hxk']⟩
    · intro p hp
      rcases List.mem_append.mp hp with hpa | hpn
      · exact List.mem_append_left _ (h3 p hpa)
      · have hpk : p = (k, 1) := by simpa using hpn
        rw [hpk]
        exact List.mem_append_right _ (by simp)

theorem tally_go (l : List String) :
    ∀ (acc : List (String × Nat)) (seen : List String),
    (∀ p ∈ acc, p.2 = countOcc p.1 seen) →
    (∀ x ∈ seen, ∃ p ∈ acc, p.1 = x) →
    (∀ p ∈ acc, p.1 ∈ seen) →
    (∀ p ∈ l.foldl bump acc, p.2 = countOcc p.1 (seen ++ l)) ∧
    (∀ p ∈ l.foldl bump acc, p.1 ∈ seen ++ l) := by
  induction l with
  | nil =>
    intro acc seen h1 _ h3
    constructor
    · intro p hp; simpa using h1 p (by simpa using hp)
    · intro p hp; simpa using h3 p (by simpa using hp)
  | cons k ks ih =>
    intro acc seen h1 h2 h3
    obtain ⟨g1, g2, g3⟩ := bump_inv acc seen k h1 h2 h3
    have hih := ih (bump acc k) (seen ++ [k]) g1 g2 g3
    constructor
    · intro p hp
      have := hih.1 p (by simpa using hp)
      simpa [List.append_assoc] using this
    · intro p hp
      have := hih.2 p (by simpa using hp)
      simpa [List.append_assoc] using this

theorem tally_spec (l : List String) :
    ∀ p ∈ tally l, p.2 = countOcc p.1 l ∧ p.1 ∈ l := by
  intro p hp
  have h := tally_go l [] []
    (by intro p hp; cases hp) (by intro x hx; cases hx) (by intro p hp; cases hp)
  exact ⟨by simpa using h.1 p (by simpa [tally] using hp),
         by simpa using h.2 p (by simpa [tally] using hp)⟩

/-- Claim C4: extract_common_headers returns at most 10 names, never one
that lower-cases to content-length or content-encoding, and the returned
names are in descending order of occurrence count across the requests'
header mappings. -/
theorem extract_common_headers_spec (requests : List Request) :
    (extract_common_headers requests).length ≤ 10 ∧
    (∀ h ∈ extract_common_headers requests,
      pyLower h ≠ "content-length" ∧ pyLower h ≠ "content-encoding") ∧
    List.Pairwise (fun a b => headerCount requests b ≤ headerCount requests a)
      (extract_common_headers requests) := by
  have hdef : extract_common_headers requests =
      (((tally ((allHeaderNames requests).filter keepHeader)).insertionSort
        countGE).take 10).map Prod.fst := rfl
  set ctally := tally ((allHeaderNames requests).filter keepHeader) with hct
  set csorted := ctally.insertionSort countGE with hso
  have hmem : ∀ p ∈ csorted.take 10,
      p.2 = countOcc p.1 ((allHeaderNames requests).filter keepHeader) ∧
      p.1 ∈ (allHeaderNames requests).filter keepHeader := by
    intro p hp
    have hps : p ∈ csorted := (List.take_sublist 10 csorted).subset hp
    have hpt : p ∈ ctally := by
      rw [hso] at hps
      simpa using hps
    exact tally_spec _ p hpt
  refine ⟨?_, ?_, ?_⟩
  · rw [hdef, List.length_map, List.length_take]
    exact Nat.min_le_left _ _
  · intro h hh
    rw [hdef] at hh
    obtain ⟨p, hp, hph⟩ := List.mem_map.mp hh
    have hfil := (hmem p hp).2
    have hkeep : keepHeader p.1 = true := (List.mem_filter.mp hfil).2
    have hprop := of_decide_eq_true hkeep
    push_neg at hprop
    rw [← hph]
    exact hprop
  · rw [hdef, List.pairwise_map]
    have hsorted : List.Pairwise countGE (csorted.take 10) :=
      List.Pairwise.sublist (List.take_sublist 10 csorted)
        (List.sorted_insertionSort countGE ctally)
    refine hsorted.imp_of_mem ?_
    intro a b ha hb hab
    have hka : keepHeader a.1 = true := (List.mem_filter.mp (hmem a ha).2).2
    have hkb : keepHeader b.1 = true := (List.mem_filter.mp (hmem b hb).2).2
    show headerCount requests b.1 ≤ headerCount requests a.1
    unfold headerCount
    rw [← countOcc_filter hka, ← countOcc_filter hkb, ← (hmem a ha).1, ← (hmem b hb).1]
    exact hab

end Converter
